import Mathlib

/-!
# Verification of the coverage-report core (`src/main.py`)

Shallow embedding of the row-parsing, timeline-generation and coverage
computation of the service, together with proofs checking the published
specification against it.

Conventions of the embedding:

* Instants (Python `datetime`) are integers counting minutes; `timedelta
  (minutes = m)` is the translation by `m`.
* A raw row (a `csv.DictReader` or `openpyxl` row) is an ordered association
  list from header names to loosely typed scalars (`Value`).
* Python `float` scalars are modelled as rationals (no claim of this
  development depends on rounding of binary floating point).
* The external library parsers `datetime.fromisoformat` and `float(str)` are
  parameters (`fromiso`, `pyfloat`) of the parsing functions: the repository
  calls them, it does not define them.  Theorems quantify over them.
* A Python `try: ... except Exception: continue` row body is a function into
  `Option`, `none` meaning the row is skipped.
* The `while cur <= end` loop of `daterange` is modelled with explicit fuel
  counting loop iterations; a result `none` means the loop did not finish
  within the given number of iterations, and divergence is the statement
  that every fuel bound returns `none`.
-/

/-- Instants: minutes on an integer time axis (models `datetime` values,
which the core only compares, translates by `timedelta(minutes=...)`, and
uses as exact dictionary keys). -/
abbrev DT := Int

/-- A loosely typed cell value as produced by the row extractor:
a text cell, an integer or float scalar, a native date/time scalar,
or Python `None` (missing). -/
inductive Value where
  | vstr (s : String)
  | vint (n : Int)
  | vnum (q : Rat)
  | vdt (t : DT)
  | vnone
deriving DecidableEq, Repr

/-- A raw row: ordered mapping from header name to value. -/
abbrev Row := List (String × Value)

/-- Python truthiness of the cell values that occur in rows:
`""`, `0`, `0.0` and `None` are falsy, a `datetime` is always truthy. -/
def Value.truthy : Value → Bool
  | .vstr s => s ≠ ""
  | .vint n => n ≠ 0
  | .vnum q => q ≠ 0
  | .vdt _ => true
  | .vnone => false

/-- Python `x or y` on cell values. -/
def orV (x y : Value) : Value := if x.truthy then x else y

/-- Models Python `str.strip()` restricted to ASCII whitespace (the header
names and city codes the service sees are ASCII). -/
def pyStrip (s : String) : String :=
  ⟨((s.toList.dropWhile Char.isWhitespace).reverse.dropWhile Char.isWhitespace).reverse⟩

/-- Models Python `str.lower()` (ASCII case folding). -/
def pyLower (s : String) : String := ⟨s.toList.map Char.toLower⟩

/-- `_norm` from `src/main.py`: `(s or "").strip().lower()` on a header key. -/
def normKey (s : String) : String := pyLower (pyStrip s)

/-- Models Python `str(value)` for the cell values.  `str(int)` is the usual
decimal rendering and `str` of a string is itself; the renderings of float
and datetime scalars are placeholders (no row path that decides a claim
stringifies those — they either take the typed branch or fail to parse). -/
def pyStr : Value → String
  | .vstr s => s
  | .vint n => toString n
  | .vnum q => if q.den = 1 then toString q.num ++ ".0" else toString q
  | .vdt t => "datetime:" ++ toString t
  | .vnone => "None"

/-- The keys of a row, in order (`row.keys()`). -/
def rowKeys (row : Row) : List String := row.map (·.1)

/-- `keys = { _norm(k): k for k in row.keys() }` followed by `keys.get(a)`:
the last raw key whose normalization equals `a` (a later duplicate
overwrites an earlier one in the dict comprehension). -/
def keyFor (row : Row) (a : String) : Option String :=
  ((rowKeys row).filter (fun k => normKey k = a)).getLast?

/-- `row.get(k)` for a raw key, `None` when absent. -/
def rowGet (row : Row) (k : String) : Value :=
  match row.find? (fun p => p.1 = k) with
  | some p => p.2
  | none => .vnone

/-- `row.get(keys.get(a))`: when the alias is not among the normalized keys,
`keys.get` yields `None` and `row.get(None)` yields `None`. -/
def getAlias (row : Row) (a : String) : Value :=
  match keyFor row a with
  | some k => rowGet row k
  | none => .vnone

/-- Whether some raw key of the row normalizes to the alias. -/
def hasKeyNorm (row : Row) (a : String) : Bool := (keyFor row a).isSome

/-- First truthy value of a list (the value an `a or b or ...` chain picks). -/
def firstTruthy : List Value → Option Value
  | [] => none
  | v :: vs => if v.truthy then some v else firstTruthy vs

/-- First truthy alias value of a row, aliases in priority order. -/
def firstTruthyAlias (row : Row) (aliases : List String) : Option Value :=
  firstTruthy (aliases.map (getAlias row))

/-- Modelled from the spec: the spec's own resolution rule (§3), "pick the
first alias in the configured order that exists among the normalized keys",
independently of the stored value.  Stated only to compare it with the
source's `or`-chain resolution. -/
def resolveByKey (row : Row) : List String → Option Value
  | [] => none
  | a :: rest =>
    match keyFor row a with
    | some k => some (rowGet row k)
    | none => resolveByKey row rest

/-- Demand table city: `(str(row.get(keys.get('city_code')) or
row.get(keys.get('city')) or "")).strip()`. -/
def cityValOf (row : Row) : String :=
  pyStrip (pyStr (orV (getAlias row "city_code") (orV (getAlias row "city") (.vstr ""))))

/-- Demand table raw timestamp: the four-alias `or` chain. -/
def tsRawOf (row : Row) : Value :=
  orV (getAlias row "slot_started_local_at")
    (orV (getAlias row "timestamp")
      (orV (getAlias row "time") (getAlias row "datetime")))

/-- Demand table raw demand: the three-alias `or` chain with default `0`. -/
def demandRawOf (row : Row) : Value :=
  orV (getAlias row "final_order_forecast")
    (orV (getAlias row "available_capacity")
      (orV (getAlias row "demand") (.vint 0)))

/-- Models Python's single-character `str.replace(c, r)` (all occurrences). -/
def replaceChar (s : String) (c : Char) (r : String) : String :=
  ⟨(s.toList.map (fun a => if a = c then r.toList else [a])).flatten⟩

/-- The timestamp branch of the row parsers: a native date/time scalar is
taken directly; otherwise `s = str(raw).replace('Z', '+00:00')`, then a
single space separator is turned into `T` when no `T` is present, then the
external `datetime.fromisoformat` (`fromiso`) parses it, an exception
becoming `none`. -/
def parseTs (fromiso : String → Option DT) (v : Value) : Option DT :=
  match v with
  | .vdt t => some t
  | v =>
    let s := replaceChar (pyStr v) 'Z' "+00:00"
    let s := if ¬ (s.toList.contains 'T') ∧ s.toList.contains ' ' then replaceChar s ' ' "T" else s
    fromiso s

/-- Truncation toward zero: Python `int()` applied to a float value. -/
def ratTrunc (q : Rat) : Int := if 0 ≤ q then ⌊q⌋ else ⌈q⌉

/-- The demand branch: `int(raw)` for numeric scalars, otherwise
`int(float(str(raw).strip() or '0'))` with the external `float` parser
(`pyfloat`); a parse exception becomes `none`. -/
def demandValue? (pyfloat : String → Option Rat) (row : Row) : Option Int :=
  match demandRawOf row with
  | .vint n => some n
  | .vnum q => some (ratTrunc q)
  | v =>
    let s := pyStrip (pyStr v)
    let s := if s = "" then "0" else s
    (pyfloat s).map ratTrunc

/-- One iteration of the `parse_demand_rows` loop body (the `try` block):
`none` exactly when the row is skipped (`continue`). -/
def demandRowResult (fromiso : String → Option DT) (pyfloat : String → Option Rat)
    (city : String) (row : Row) : Option (DT × Int) :=
  if city ≠ "" ∧ cityValOf row ≠ city then none
  else
    let raw_ts := tsRawOf row
    if raw_ts = .vnone ∨ raw_ts = .vstr "" then none
    else
      match parseTs fromiso raw_ts with
      | none => none
      | some dt =>
        match demandValue? pyfloat row with
        | none => none
        | some d => some (dt, d)

/-- The demand index: a Python dict from timestamp to demand, modelled as an
insertion-ordered association list with unique keys. -/
abbrev DemandMap := List (DT × Int)

/-- `m[k] = v` on the dict model: overwrite in place, else append. -/
def mapSet (m : DemandMap) (k : DT) (v : Int) : DemandMap :=
  if m.any (fun p => p.1 == k) then m.map (fun p => if p.1 == k then (k, v) else p)
  else m ++ [(k, v)]

/-- `m.get(k, d)` on the dict model. -/
def mapGet (m : DemandMap) (k : DT) (d : Int) : Int :=
  match m.find? (fun p => p.1 == k) with
  | some p => p.2
  | none => d

/-- `parse_demand_rows(rows, city)` from `src/main.py`. -/
def parse_demand_rows (fromiso : String → Option DT) (pyfloat : String → Option Rat)
    (rows : List Row) (city : String) : DemandMap :=
  let c := pyStrip city
  rows.foldl
    (fun m row =>
      match demandRowResult fromiso pyfloat c row with
      | none => m
      | some (t, v) => mapSet m t v)
    []

/-- An availability interval `{'rider_id': ..., 'start': ..., 'end': ...}`. -/
structure Rider where
  rider_id : String
  start : DT
  endt : DT
deriving DecidableEq, Repr

/-- Rider table city: `(str(row.get(keys.get('ciudad')) or
row.get(keys.get('city')) or "")).strip()`. -/
def riderCityOf (row : Row) : String :=
  pyStrip (pyStr (orV (getAlias row "ciudad") (orV (getAlias row "city") (.vstr ""))))

/-- Rider identifier: three-alias chain, stringified and stripped. -/
def riderIdOf (row : Row) : String :=
  pyStrip (pyStr (orV (getAlias row "rider id")
    (orV (getAlias row "rider_id") (orV (getAlias row "id") (.vstr "")))))

/-- Rider interval start: three-alias chain (no default). -/
def riderStartRaw (row : Row) : Value :=
  orV (getAlias row "available from") (orV (getAlias row "start") (getAlias row "start_time"))

/-- Rider interval end: three-alias chain (no default). -/
def riderEndRaw (row : Row) : Value :=
  orV (getAlias row "available to") (orV (getAlias row "end") (getAlias row "end_time"))

/-- One iteration of the `parse_riders_rows` loop body: `none` exactly when
the row is skipped. -/
def riderRowResult (fromiso : String → Option DT) (city : String) (row : Row) :
    Option Rider :=
  if city ≠ "" ∧ riderCityOf row ≠ city then none
  else
    let start_raw := riderStartRaw row
    let end_raw := riderEndRaw row
    if ¬ start_raw.truthy ∨ ¬ end_raw.truthy then none
    else
      match parseTs fromiso start_raw, parseTs fromiso end_raw with
      | some s, some e => if e ≤ s then none else some ⟨riderIdOf row, s, e⟩
      | _, _ => none

/-- `parse_riders_rows(rows, city)` from `src/main.py`. -/
def parse_riders_rows (fromiso : String → Option DT) (rows : List Row) (city : String) :
    List Rider :=
  let c := pyStrip city
  rows.foldl
    (fun acc row =>
      match riderRowResult fromiso c row with
      | none => acc
      | some r => acc ++ [r])
    []

/-- `daterange(start, end, step_minutes)` from `src/main.py`: the
`while cur <= end` loop with `fuel` bounding the number of iterations.
`none` means the loop did not terminate within `fuel` iterations. -/
def daterange (fuel : Nat) (cur endt step : Int) : Option (List Int) :=
  match fuel with
  | 0 => if cur ≤ endt then none else some []
  | f + 1 =>
    if cur ≤ endt then (daterange f (cur + step) endt step).map (fun l => cur :: l)
    else some []

/-- `overlap(a_start, a_end, b_start, b_end)` from `src/main.py`. -/
def overlap (a_start a_end b_start b_end : DT) : Bool :=
  decide (a_start < b_end) && decide (b_start < a_end)

/-- One coverage point of the series (the `time` field keeps the instant;
the endpoint serializes it with `isoformat()`). -/
structure CoveragePoint where
  time : DT
  demand : Int
  available : Int
  staffed : Int
  unmet : Int
  surplus : Int
deriving DecidableEq, Repr

/-- The body of the bucket loop in `optimize`: demand looked up at exactly
`t0` with default `0`, available riders counted by `overlap` against
`[t0, t0 + step)`, then the derived staffed/unmet/surplus quantities. -/
def mkPoint (dm : DemandMap) (riders : List Rider) (step t0 : Int) : CoveragePoint :=
  let t1 := t0 + step
  let demand := mapGet dm t0 0
  let available : Int := (riders.countP fun r => overlap r.start r.endt t0 t1 : Nat)
  { time := t0
    demand := demand
    available := available
    staffed := min demand available
    unmet := max (demand - available) 0
    surplus := max (available - demand) 0 }

/-- The bucket loop of `optimize`: appends one point per timeline instant and
accumulates `total_unmet` and `total_surplus` as it goes. -/
def coverageLoop (dm : DemandMap) (riders : List Rider) (step : Int)
    (times : List Int) : List CoveragePoint × Int × Int :=
  times.foldl
    (fun acc t0 =>
      let p := mkPoint dm riders step t0
      (acc.1 ++ [p], acc.2.1 + p.unmet, acc.2.2 + p.surplus))
    ([], 0, 0)

/-- The summary block of the response (`end` is called `stop` here, `end`
being a Lean keyword). -/
structure Summary where
  interval_minutes : Int
  points : Nat
  total_unmet : Int
  total_surplus : Int
  city : String
  start : DT
  stop : DT
deriving DecidableEq, Repr

/-- The response of the `optimize` endpoint. -/
structure Report where
  summary : Summary
  series : List CoveragePoint
deriving DecidableEq, Repr

/-- The core of the `optimize` endpoint after transport decoding: the
`end <= start` guard (the `InvalidRangeError` of the spec, an HTTP 400 in
the source), the two row parsers on the stripped city, the timeline, the
bucket loop and the summary.  `fuel` bounds the `daterange` iterations:
`none` means the request computation does not finish (the loop diverges). -/
def optimizeCore (fromiso : String → Option DT) (pyfloat : String → Option Rat)
    (fuel : Nat) (d_rows r_rows : List Row) (start_dt end_dt : DT) (city : String)
    (interval_minutes : Int) : Option (Except String Report) :=
  if end_dt ≤ start_dt then some (Except.error "end_date must be after start_date")
  else
    let demand_map := parse_demand_rows fromiso pyfloat d_rows (pyStrip city)
    let riders := parse_riders_rows fromiso r_rows (pyStrip city)
    match daterange fuel start_dt end_dt interval_minutes with
    | none => none
    | some times =>
      let out := coverageLoop demand_map riders interval_minutes times
      some (Except.ok
        { summary :=
            { interval_minutes := interval_minutes
              points := out.1.length
              total_unmet := out.2.1
              total_surplus := out.2.2
              city := city
              start := start_dt
              stop := end_dt }
          series := out.1 })

/-- Stand-in for the external `datetime.fromisoformat`: the fixture rows of
this development carry spreadsheet-native date/time scalars, so the text
parser is never consulted on them; `none` models the parse exception on
any other input. -/
def isoStub : String → Option DT := fun _ => none

/-- Stand-in for the external `float(str)` parser: the fixture rows carry
typed numeric cells or non-numeric text (on which Python `float` raises),
so `none` on every string is faithful at every consulted input. -/
def floatStub : String → Option Rat := fun _ => none

/-- Fixture: a valid demand row with no city column. -/
def rowNoCity : Row := [("timestamp", Value.vdt 600), ("demand", Value.vint 5)]

/-- Fixture: a valid rider row with no city column. -/
def rowNoCityR : Row :=
  [("rider id", Value.vstr "7"), ("start", Value.vdt 0), ("end", Value.vdt 30)]

/-- Fixture: a demand row whose preferred demand alias holds the falsy value
`0` while a lower-priority alias holds `7`. -/
def rowC2 : Row :=
  [("timestamp", Value.vdt 600), ("final_order_forecast", Value.vint 0),
   ("demand", Value.vint 7)]

/-- Fixture: a demand row with a negative demand cell. -/
def rowNeg : Row := [("timestamp", Value.vdt 600), ("demand", Value.vint (-5))]

/-- Fixture: a demand row at instant 600 with demand 5. -/
def rowD5 : Row := [("timestamp", Value.vdt 600), ("demand", Value.vint 5)]

/-- Fixture: a demand row at the same instant 600 with demand 9. -/
def rowD9 : Row := [("timestamp", Value.vdt 600), ("demand", Value.vint 9)]

/-- Fixture: a malformed demand row (non-numeric demand cell). -/
def badDemandRow : Row := [("timestamp", Value.vdt 600), ("demand", Value.vstr "abc")]

/-- Fixture: a malformed rider row (interval end missing). -/
def badRiderRow : Row := [("start", Value.vdt 0)]

/-- Fixture: a valid rider row available on `[0, 30)`. -/
def riderRow1 : Row :=
  [("rider id", Value.vstr "1"), ("available from", Value.vdt 0),
   ("available to", Value.vdt 30)]

/-! ## Helper lemmas -/

/-- An `or` chain with two operands picks the first truthy value. -/
theorem orV_chain2 (a b d : Value) :
    orV a (orV b d) = (firstTruthy [a, b]).getD d := by
  cases ha : a.truthy <;> cases hb : b.truthy <;>
    simp [orV, firstTruthy, ha, hb]

/-- An `or` chain with three operands picks the first truthy value. -/
theorem orV_chain3 (a b c d : Value) :
    orV a (orV b (orV c d)) = (firstTruthy [a, b, c]).getD d := by
  cases ha : a.truthy <;> cases hb : b.truthy <;> cases hc : c.truthy <;>
    simp [orV, firstTruthy, ha, hb, hc]

/-- Appending the chain's own default as a last candidate does not change the
value the chain produces. -/
theorem firstTruthy_append_self (vs : List Value) (d : Value) :
    (firstTruthy (vs ++ [d])).getD d = (firstTruthy vs).getD d := by
  induction vs with
  | nil => cases hd : d.truthy <;> simp [firstTruthy, hd]
  | cons v vs ih => cases hv : v.truthy <;> simp [firstTruthy, hv, ih]

/-- After `mapSet m k v`, looking for key `k` finds exactly `(k, v)`. -/
theorem find?_mapSet_self (m : DemandMap) (k : DT) (v : Int) :
    (mapSet m k v).find? (fun p => p.1 == k) = some (k, v) := by
  induction m with
  | nil => simp [mapSet, List.find?]
  | cons hd tl ih =>
    by_cases hhd : hd.1 = k
    · simp [mapSet, List.find?, hhd]
    · by_cases ht : tl.any (fun p => p.1 == k)
      · have h1 : mapSet (hd :: tl) k v =
            hd :: tl.map (fun p => if p.1 == k then (k, v) else p) := by
          simp [mapSet, List.any_cons, ht, hhd]
        have h2 : mapSet tl k v = tl.map (fun p => if p.1 == k then (k, v) else p) := by
          simp [mapSet, ht]
        rw [h1, List.find?_cons_of_neg _ (by simp [hhd]), ← h2, ih]
      · have h1 : mapSet (hd :: tl) k v = hd :: (tl ++ [(k, v)]) := by
          simp [mapSet, List.any_cons, ht, hhd]
        have h2 : mapSet tl k v = tl ++ [(k, v)] := by simp [mapSet, ht]
        rw [h1, List.find?_cons_of_neg _ (by simp [hhd]), ← h2, ih]

/-- After `mapSet m k v`, `m.get(k, d)` returns `v`. -/
theorem mapGet_mapSet_self (m : DemandMap) (k : DT) (v d : Int) :
    mapGet (mapSet m k v) k d = v := by
  simp [mapGet, find?_mapSet_self]

/-- Every pair of `mapSet m k v` is the written pair or an old pair. -/
theorem mem_mapSet (m : DemandMap) (k : DT) (v : Int) :
    ∀ p ∈ mapSet m k v, p = (k, v) ∨ p ∈ m := by
  intro p hp
  unfold mapSet at hp
  by_cases ha : m.any (fun q => q.1 == k)
  · rw [if_pos ha] at hp
    obtain ⟨q, hq, hqe⟩ := List.mem_map.mp hp
    by_cases hv : q.1 == k
    · left; rw [if_pos hv] at hqe; exact hqe.symm
    · right; rw [if_neg hv] at hqe; exact hqe ▸ hq
  · rw [if_neg ha] at hp
    rcases List.mem_append.mp hp with h | h
    · right; exact h
    · left; simpa using h

/-- The demand fold: every pair of the resulting index is an initial pair or
the parsed result of some processed row. -/
theorem parse_demand_fold_mem (fromiso : String → Option DT)
    (pyfloat : String → Option Rat) (c : String) :
    ∀ (rows : List Row) (m : DemandMap) (p : DT × Int),
      p ∈ rows.foldl
            (fun m row =>
              match demandRowResult fromiso pyfloat c row with
              | none => m
              | some (t, v) => mapSet m t v)
            m →
      p ∈ m ∨ ∃ row ∈ rows, demandRowResult fromiso pyfloat c row = some p := by
  intro rows
  induction rows with
  | nil => intro m p hp; exact Or.inl hp
  | cons r rows ih =>
    intro m p hp
    rw [List.foldl_cons] at hp
    rcases hres : demandRowResult fromiso pyfloat c r with _ | ⟨t, v⟩
    · rw [hres] at hp
      rcases ih m p hp with h | ⟨row, hrow, hr⟩
      · exact Or.inl h
      · exact Or.inr ⟨row, List.mem_cons_of_mem _ hrow, hr⟩
    · rw [hres] at hp
      rcases ih (mapSet m t v) p hp with h | ⟨row, hrow, hr⟩
      · rcases mem_mapSet m t v p h with h' | h'
        · exact Or.inr ⟨r, List.mem_cons_self _ _, by rw [hres, h']⟩
        · exact Or.inl h'
      · exact Or.inr ⟨row, List.mem_cons_of_mem _ hrow, hr⟩

/-- The rider fold is a `filterMap` of the per-row results. -/
theorem riders_fold_filterMap (g : Row → Option Rider) :
    ∀ (rows : List Row) (acc : List Rider),
      rows.foldl
          (fun acc row =>
            match g row with
            | none => acc
            | some r => acc ++ [r])
          acc
        = acc ++ rows.filterMap g := by
  intro rows
  induction rows with
  | nil => intro acc; simp
  | cons r rows ih =>
    intro acc
    rcases hg : g r with _ | v <;>
      simp [List.filterMap_cons, hg, ih]

/-- `parse_riders_rows` is the `filterMap` of the per-row results. -/
theorem parse_riders_rows_eq (fromiso : String → Option DT) (rows : List Row)
    (city : String) :
    parse_riders_rows fromiso rows city =
      rows.filterMap (riderRowResult fromiso (pyStrip city)) := by
  simpa [parse_riders_rows] using
    riders_fold_filterMap (riderRowResult fromiso (pyStrip city)) rows []

/-- The bucket loop with a general accumulator: it appends one point per
instant and adds the per-point unmet/surplus into the running totals. -/
theorem coverageLoop_general (dm : DemandMap) (rs : List Rider) (step : Int) :
    ∀ (times : List Int) (acc : List CoveragePoint) (u s : Int),
      times.foldl
          (fun acc t0 =>
            let p := mkPoint dm rs step t0
            (acc.1 ++ [p], acc.2.1 + p.unmet, acc.2.2 + p.surplus))
          (acc, u, s)
        = (acc ++ times.map (mkPoint dm rs step),
           u + (times.map fun t => (mkPoint dm rs step t).unmet).sum,
           s + (times.map fun t => (mkPoint dm rs step t).surplus).sum) := by
  intro times
  induction times with
  | nil => intro acc u s; simp
  | cons t times ih =>
    intro acc u s
    rw [List.foldl_cons, ih]
    simp [add_assoc]

/-- Of the two one-sided clamped differences of a pair, one is zero. -/
theorem max_sub_mul_max_sub (d a : Int) : max (d - a) 0 * max (a - d) 0 = 0 := by
  rcases le_total d a with h | h
  · have h0 : max (d - a) 0 = 0 := by omega
    rw [h0, zero_mul]
  · have h0 : max (a - d) 0 = 0 := by omega
    rw [h0, mul_zero]

/-- Closed form of the bucket loop. -/
theorem coverageLoop_eq (dm : DemandMap) (rs : List Rider) (step : Int)
    (times : List Int) :
    coverageLoop dm rs step times =
      (times.map (mkPoint dm rs step),
       (times.map fun t => (mkPoint dm rs step t).unmet).sum,
       (times.map fun t => (mkPoint dm rs step t).surplus).sum) := by
  simpa [coverageLoop] using coverageLoop_general dm rs step times [] 0 0

/-- When the loop condition already fails, any fuel returns the empty list. -/
theorem daterange_stop (fuel : Nat) (cur endt step : Int) (h : ¬ cur ≤ endt) :
    daterange fuel cur endt step = some [] := by
  cases fuel <;> simp [daterange, h]

/-- With a non-positive step and a satisfiable loop condition, the
`while cur <= end` loop never terminates: every iteration bound is
exhausted. -/
theorem daterange_diverge (endt step : Int) (hstep : step ≤ 0) :
    ∀ (fuel : Nat) (cur : Int), cur ≤ endt → daterange fuel cur endt step = none := by
  intro fuel
  induction fuel with
  | zero => intro cur h; simp [daterange, h]
  | succ f ih =>
    intro cur h
    simp [daterange, h, ih (cur + step) (by omega)]

/-- With a positive step, enough fuel makes the loop terminate. -/
theorem daterange_total (endt step : Int) (hstep : 0 < step) :
    ∀ (fuel : Nat) (cur : Int), (endt + step - cur).toNat ≤ fuel →
      ∃ l, daterange fuel cur endt step = some l := by
  intro fuel
  induction fuel with
  | zero =>
    intro cur h
    exact ⟨[], daterange_stop 0 cur endt step (by omega)⟩
  | succ f ih =>
    intro cur h
    by_cases hc : cur ≤ endt
    · obtain ⟨l, hl⟩ := ih (cur + step) (by omega)
      exact ⟨cur :: l, by simp [daterange, hc, hl]⟩
    · exact ⟨[], daterange_stop _ cur endt step hc⟩

/-- Two terminating runs of the loop agree. -/
theorem daterange_unique (endt step : Int) :
    ∀ (f1 : Nat) (cur : Int) (l1 l2 : List Int) (f2 : Nat),
      daterange f1 cur endt step = some l1 → daterange f2 cur endt step = some l2 →
      l1 = l2 := by
  intro f1
  induction f1 with
  | zero =>
    intro cur l1 l2 f2 h1 h2
    by_cases hc : cur ≤ endt
    · simp [daterange, hc] at h1
    · rw [daterange_stop _ cur endt step hc] at h1 h2
      rw [← Option.some_inj.mp h1, ← Option.some_inj.mp h2]
  | succ f ih =>
    intro cur l1 l2 f2 h1 h2
    by_cases hc : cur ≤ endt
    · cases f2 with
      | zero => simp [daterange, hc] at h2
      | succ g =>
        simp only [daterange, if_pos hc, Option.map_eq_some'] at h1 h2
        obtain ⟨l1', hl1, rfl⟩ := h1
        obtain ⟨l2', hl2, rfl⟩ := h2
        rw [ih (cur + step) l1' l2' g hl1 hl2]
    · rw [daterange_stop _ cur endt step hc] at h1 h2
      rw [← Option.some_inj.mp h1, ← Option.some_inj.mp h2]

/-- A terminating run with positive step is the arithmetic progression
`cur, cur + step, cur + 2 step, ...` of exactly the instants `≤ end`. -/
theorem daterange_sound (endt step : Int) (hstep : 0 < step) :
    ∀ (fuel : Nat) (cur : Int) (l : List Int),
      daterange fuel cur endt step = some l →
      (∀ i (h : i < l.length), l.get ⟨i, h⟩ = cur + i * step) ∧
      (∀ t : Int, t ∈ l ↔ ∃ i : Nat, t = cur + i * step ∧ t ≤ endt) := by
  intro fuel
  induction fuel with
  | zero =>
    intro cur l h
    by_cases hc : cur ≤ endt
    · simp [daterange, hc] at h
    · rw [daterange_stop _ cur endt step hc] at h
      obtain rfl := Option.some_inj.mp h
      refine ⟨by intro i hi; simp at hi, ?_⟩
      intro t
      simp only [List.not_mem_nil, false_iff]
      rintro ⟨i, rfl, hle⟩
      have : 0 ≤ (i : Int) * step := mul_nonneg (by positivity) hstep.le
      omega
  | succ f ih =>
    intro cur l h
    by_cases hc : cur ≤ endt
    · simp only [daterange, if_pos hc, Option.map_eq_some'] at h
      obtain ⟨l', hl', rfl⟩ := h
      obtain ⟨ihp, ihm⟩ := ih (cur + step) l' hl'
      constructor
      · intro i hi
        cases i with
        | zero => simp
        | succ j =>
          have hj : j < l'.length := by simpa using hi
          have := ihp j hj
          simp only [List.length_cons] at hi
          rw [List.get_cons_succ, this]
          push_cast
          ring
      · intro t
        simp only [List.mem_cons, ihm]
        constructor
        · rintro (rfl | ⟨i, rfl, hle⟩)
          · exact ⟨0, by simp, hc⟩
          · exact ⟨i + 1, by push_cast; ring, hle⟩
        · rintro ⟨i, rfl, hle⟩
          cases i with
          | zero => left; simp
          | succ j =>
            right
            exact ⟨j, by push_cast; ring, hle⟩
    · rw [daterange_stop _ cur endt step hc] at h
      obtain rfl := Option.some_inj.mp h
      refine ⟨by intro i hi; simp at hi, ?_⟩
      intro t
      simp only [List.not_mem_nil, false_iff]
      rintro ⟨i, rfl, hle⟩
      have : 0 ≤ (i : Int) * step := mul_nonneg (by positivity) hstep.le
      omega

/-! ## Claim theorems -/

/-- C1 (counterexample): a fully valid demand row (resp. rider row) that has
no city column at all IS excluded by the city filter whenever the target
city is non-empty — the same row contributes normally when the target is
empty — contradicting the claim that such rows pass through unfiltered. -/
theorem c1_absent_city_counterexample :
    parse_demand_rows isoStub floatStub [rowNoCity] "MAD" = [] ∧
    parse_demand_rows isoStub floatStub [rowNoCity] "" = [(600, 5)] ∧
    parse_riders_rows isoStub [rowNoCityR] "MAD" = [] ∧
    parse_riders_rows isoStub [rowNoCityR] "" = [⟨"7", 0, 30⟩] := by
  decide

/-- C1 (amended): a row of the demand or rider table in which no alias of
the city field resolves to a key has resolved city value `""`, and is
excluded by the city filter whenever the stripped target city is non-empty;
it passes the filter only when the target is empty. -/
theorem c1_absent_city_excluded (fromiso : String → Option DT)
    (pyfloat : String → Option Rat) (city : String) (row : Row)
    (h1 : hasKeyNorm row "city_code" = false) (h2 : hasKeyNorm row "city" = false)
    (h3 : hasKeyNorm row "ciudad" = false) (hc : pyStrip city ≠ "") :
    demandRowResult fromiso pyfloat (pyStrip city) row = none ∧
    riderRowResult fromiso (pyStrip city) row = none ∧
    parse_demand_rows fromiso pyfloat [row] city = [] ∧
    parse_riders_rows fromiso [row] city = [] := by
  have e1 : getAlias row "city_code" = .vnone := by
    unfold getAlias
    rcases hk : keyFor row "city_code" with _ | k
    · rfl
    · simp [hasKeyNorm, hk] at h1
  have e2 : getAlias row "city" = .vnone := by
    unfold getAlias
    rcases hk : keyFor row "city" with _ | k
    · rfl
    · simp [hasKeyNorm, hk] at h2
  have e3 : getAlias row "ciudad" = .vnone := by
    unfold getAlias
    rcases hk : keyFor row "ciudad" with _ | k
    · rfl
    · simp [hasKeyNorm, hk] at h3
  have ecity : cityValOf row = "" := by
    simp [cityValOf, e1, e2, orV, Value.truthy, pyStr, pyStrip]
  have ecity2 : riderCityOf row = "" := by
    simp [riderCityOf, e3, e2, orV, Value.truthy, pyStr, pyStrip]
  have hc2 : ("" : String) ≠ pyStrip city := Ne.symm hc
  have hd : demandRowResult fromiso pyfloat (pyStrip city) row = none := by
    simp [demandRowResult, ecity, hc, hc2]
  have hr : riderRowResult fromiso (pyStrip city) row = none := by
    simp [riderRowResult, ecity2, hc, hc2]
  exact ⟨hd, hr, by simp [parse_demand_rows, hd], by simp [parse_riders_rows, hr]⟩

/-- C2 (counterexample): in `rowC2` the highest-priority demand alias
`final_order_forecast` is present with value `0`; the spec's key-presence
resolution would select that `0`, but the source's `or`-chain falls through
the falsy `0` and stores the lower-priority `demand` value `7`. -/
theorem c2_alias_value_fallthrough_counterexample :
    resolveByKey rowC2 ["final_order_forecast", "available_capacity", "demand"] =
      some (Value.vint 0) ∧
    hasKeyNorm rowC2 "final_order_forecast" = true ∧
    parse_demand_rows isoStub floatStub [rowC2] "" = [(600, 7)] ∧
    (7 : Int) ≠ 0 := by
  decide

/-- C2 (amended): for every row and every logical field, the raw value the
source uses is the first alias value in priority order that is truthy
(absent keys yield the falsy `None`); when every alias value is falsy the
chain's own default applies — `""` for the city and rider-id fields,
`0` for demand, and the last alias's value for the timestamp and
interval-bound fields. -/
theorem c2_alias_resolution_first_truthy (row : Row) :
    cityValOf row =
      pyStrip (pyStr ((firstTruthyAlias row ["city_code", "city"]).getD (.vstr ""))) ∧
    tsRawOf row =
      (firstTruthyAlias row
        ["slot_started_local_at", "timestamp", "time", "datetime"]).getD
        (getAlias row "datetime") ∧
    demandRawOf row =
      (firstTruthyAlias row
        ["final_order_forecast", "available_capacity", "demand"]).getD (.vint 0) ∧
    riderCityOf row =
      pyStrip (pyStr ((firstTruthyAlias row ["ciudad", "city"]).getD (.vstr ""))) ∧
    riderIdOf row =
      pyStrip (pyStr ((firstTruthyAlias row ["rider id", "rider_id", "id"]).getD
        (.vstr ""))) ∧
    riderStartRaw row =
      (firstTruthyAlias row ["available from", "start", "start_time"]).getD
        (getAlias row "start_time") ∧
    riderEndRaw row =
      (firstTruthyAlias row ["available to", "end", "end_time"]).getD
        (getAlias row "end_time") := by
  refine ⟨?_, ?_, ?_, ?_, ?_, ?_, ?_⟩
  · rw [cityValOf, orV_chain2]; rfl
  · rw [tsRawOf, orV_chain3]
    have : firstTruthyAlias row ["slot_started_local_at", "timestamp", "time", "datetime"] =
        firstTruthy
          ([getAlias row "slot_started_local_at", getAlias row "timestamp",
            getAlias row "time"] ++ [getAlias row "datetime"]) := rfl
    rw [this, firstTruthy_append_self]
  · rw [demandRawOf, orV_chain3]; rfl
  · rw [riderCityOf, orV_chain2]; rfl
  · rw [riderIdOf, orV_chain3]; rfl
  · rw [riderStartRaw, orV_chain2]
    have : firstTruthyAlias row ["available from", "start", "start_time"] =
        firstTruthy
          ([getAlias row "available from", getAlias row "start"] ++
            [getAlias row "start_time"]) := rfl
    rw [this, firstTruthy_append_self]
  · rw [riderEndRaw, orV_chain2]
    have : firstTruthyAlias row ["available to", "end", "end_time"] =
        firstTruthy
          ([getAlias row "available to", getAlias row "end"] ++
            [getAlias row "end_time"]) := rfl
    rw [this, firstTruthy_append_self]

/-- C3 (code bug): the core rejects a request exactly when `end <= start`;
there is no guard on the step, and for a non-positive step with a valid
range the `daterange` loop diverges — every iteration bound returns no
result and no error, instead of the `InvalidRangeError` the spec
requires. -/
theorem c3_nonpositive_step_diverges (fromiso : String → Option DT)
    (pyfloat : String → Option Rat) (d_rows r_rows : List Row) (city : String)
    (start_dt end_dt step : Int) (h1 : step ≤ 0) (h2 : start_dt < end_dt) :
    (∀ fuel,
      optimizeCore fromiso pyfloat fuel d_rows r_rows start_dt end_dt city step =
        none) ∧
    (∀ fuel (s e : Int), e ≤ s →
      optimizeCore fromiso pyfloat fuel d_rows r_rows s e city step =
        some (Except.error "end_date must be after start_date")) := by
  constructor
  · intro fuel
    have hne : ¬ end_dt ≤ start_dt := by omega
    have hdiv := daterange_diverge end_dt step h1 fuel start_dt (by omega)
    simp [optimizeCore, hne, hdiv]
  · intro fuel s e he
    simp [optimizeCore, he]

/-- C3 witness: with step `0` over the range `[0, 60]` the computation
returns nothing for (e.g.) 97 allowed iterations, while an inverted range
is rejected with the range error. -/
theorem c3_nonpositive_step_diverges_witness :
    optimizeCore isoStub floatStub 97 [] [] 0 60 "" 0 = none ∧
    optimizeCore isoStub floatStub 5 [] [] 60 0 "" 0 =
      some (Except.error "end_date must be after start_date") := by
  refine ⟨?_, ?_⟩
  · exact (c3_nonpositive_step_diverges isoStub floatStub [] [] "" 0 60 0 (by decide)
      (by decide)).1 97
  · exact (c3_nonpositive_step_diverges isoStub floatStub [] [] "" 0 60 0 (by decide)
      (by decide)).2 5 60 0 (by decide)

/-- C1 witness: the amended exclusion at the concrete city-less fixture rows
and target city `MAD`. -/
theorem c1_absent_city_excluded_witness :
    demandRowResult isoStub floatStub (pyStrip "MAD") rowNoCity = none ∧
    riderRowResult isoStub (pyStrip "MAD") rowNoCity = none ∧
    parse_demand_rows isoStub floatStub [rowNoCity] "MAD" = [] ∧
    parse_riders_rows isoStub [rowNoCity] "MAD" = [] :=
  c1_absent_city_excluded isoStub floatStub "MAD" rowNoCity (by decide) (by decide)
    (by decide) (by decide)

/-- C4: every point of the series satisfies
`staffed = min(demand, available)`, `unmet = max(demand - available, 0)`,
`surplus = max(available - demand, 0)` and `unmet * surplus = 0`, and the
accumulated totals equal the sums of the per-point unmet/surplus values. -/
theorem c4_coverage_point_identities (dm : DemandMap) (rs : List Rider)
    (step : Int) (times : List Int) :
    (∀ p ∈ (coverageLoop dm rs step times).1,
      p.staffed = min p.demand p.available ∧
      p.unmet = max (p.demand - p.available) 0 ∧
      p.surplus = max (p.available - p.demand) 0 ∧
      p.unmet * p.surplus = 0) ∧
    (coverageLoop dm rs step times).2.1 =
      ((coverageLoop dm rs step times).1.map CoveragePoint.unmet).sum ∧
    (coverageLoop dm rs step times).2.2 =
      ((coverageLoop dm rs step times).1.map CoveragePoint.surplus).sum := by
  rw [coverageLoop_eq]
  refine ⟨?_, by simp [List.map_map]; rfl, by simp [List.map_map]; rfl⟩
  intro p hp
  obtain ⟨t, _, rfl⟩ := List.mem_map.mp hp
  refine ⟨by simp [mkPoint], by simp [mkPoint], by simp [mkPoint], ?_⟩
  simp only [mkPoint]
  exact max_sub_mul_max_sub _ _

/-- C4 witness: the identities at a concrete point of a concrete series. -/
theorem c4_coverage_point_identities_witness :
    mkPoint [] [] 30 0 ∈ (coverageLoop [] [] 30 [0]).1 ∧
    ((mkPoint [] [] 30 0).staffed =
        min (mkPoint [] [] 30 0).demand (mkPoint [] [] 30 0).available ∧
      (mkPoint [] [] 30 0).unmet =
        max ((mkPoint [] [] 30 0).demand - (mkPoint [] [] 30 0).available) 0 ∧
      (mkPoint [] [] 30 0).surplus =
        max ((mkPoint [] [] 30 0).available - (mkPoint [] [] 30 0).demand) 0 ∧
      (mkPoint [] [] 30 0).unmet * (mkPoint [] [] 30 0).surplus = 0) :=
  ⟨by decide, (c4_coverage_point_identities [] [] 30 [0]).1 (mkPoint [] [] 30 0)
    (by decide)⟩

/-- C5: the available count of a bucket is the number of intervals whose
overlap test holds, the test holds exactly when `start < t1 ∧ t0 < end`
(strict on both sides), and an interval ending exactly at `t0` or starting
exactly at `t1` is not counted. -/
theorem c5_overlap_strict_half_open (dm : DemandMap) (rs : List Rider)
    (step t0 : Int) (r : Rider) :
    ((mkPoint dm rs step t0).available =
      ((rs.filter fun x => overlap x.start x.endt t0 (t0 + step)).length : Int)) ∧
    (overlap r.start r.endt t0 (t0 + step) = true ↔
      r.start < t0 + step ∧ t0 < r.endt) ∧
    (r.endt = t0 → overlap r.start r.endt t0 (t0 + step) = false) ∧
    (r.start = t0 + step → overlap r.start r.endt t0 (t0 + step) = false) := by
  refine ⟨?_, ?_, ?_, ?_⟩
  · simp [mkPoint, List.countP_eq_length_filter]
  · simp [overlap]
  · intro h
    subst h
    simp [overlap]
  · intro h
    rw [h]
    simp [overlap]

/-- C5 witness: the boundary cases at a concrete degenerate interval whose
end is the bucket start and whose start is the bucket end. -/
theorem c5_overlap_strict_half_open_witness :
    overlap (Rider.start ⟨"x", 30, 0⟩) (Rider.endt ⟨"x", 30, 0⟩) 0 (0 + 30) = false ∧
    overlap (Rider.start ⟨"x", 30, 0⟩) (Rider.endt ⟨"x", 30, 0⟩) 0 (0 + 30) = false :=
  ⟨(c5_overlap_strict_half_open [] [] 30 0 ⟨"x", 30, 0⟩).2.2.1 rfl,
   (c5_overlap_strict_half_open [] [] 30 0 ⟨"x", 30, 0⟩).2.2.2 rfl⟩

/-- C6: for a positive step and `start < end` the loop terminates on some
fuel with a unique timeline: the arithmetic progression
`start, start + step, ...`, containing exactly the progression instants
`≤ end`, each successor exceeding its predecessor by exactly `step`, and
the bucket loop emits exactly one point per timeline instant. -/
theorem c6_timeline_arithmetic (start endt step : Int) (hs : 0 < step)
    (hlt : start < endt) :
    ∃ times : List Int,
      (∃ fuel, daterange fuel start endt step = some times) ∧
      (∀ fuel l, daterange fuel start endt step = some l → l = times) ∧
      (∀ i (h : i < times.length), times.get ⟨i, h⟩ = start + i * step) ∧
      (∀ t : Int, t ∈ times ↔ ∃ i : Nat, t = start + i * step ∧ t ≤ endt) ∧
      (∀ i (h : i + 1 < times.length),
        times.get ⟨i + 1, h⟩ = times.get ⟨i, by omega⟩ + step) ∧
      (∀ dm rs, ((coverageLoop dm rs step times).1).length = times.length) := by
  obtain ⟨times, ht⟩ :=
    daterange_total endt step hs ((endt + step - start).toNat) start le_rfl
  obtain ⟨hpt, hmem⟩ := daterange_sound endt step hs _ start times ht
  refine ⟨times, ⟨_, ht⟩, ?_, hpt, hmem, ?_, ?_⟩
  · intro fuel l hl
    exact daterange_unique endt step fuel start l times _ hl ht
  · intro i h
    rw [hpt (i + 1) h, hpt i (by omega)]
    push_cast
    ring
  · intro dm rs
    rw [coverageLoop_eq]
    simp

/-- C6 witness: the timeline facts instantiated on the range `[0, 60]` with
step `30`. -/
theorem c6_timeline_arithmetic_witness :
    (0 : Int) < 30 ∧ (0 : Int) < 60 ∧
    ∃ times : List Int,
      (∃ fuel, daterange fuel 0 60 30 = some times) ∧
      (∀ fuel l, daterange fuel 0 60 30 = some l → l = times) ∧
      (∀ i (h : i < times.length), times.get ⟨i, h⟩ = 0 + i * 30) ∧
      (∀ t : Int, t ∈ times ↔ ∃ i : Nat, t = 0 + i * 30 ∧ t ≤ 60) ∧
      (∀ i (h : i + 1 < times.length),
        times.get ⟨i + 1, h⟩ = times.get ⟨i, by omega⟩ + 30) ∧
      (∀ dm rs, ((coverageLoop dm rs 30 times).1).length = times.length) :=
  ⟨by decide, by decide, c6_timeline_arithmetic 0 60 30 (by decide) (by decide)⟩

/-- C7 (counterexample): a demand row with value `-5` stores `-5` in the
index — the Demand Index is not non-negative. -/
theorem c7_negative_demand_counterexample :
    parse_demand_rows isoStub floatStub [rowNeg] "" = [(600, -5)] ∧
    (-5 : Int) < 0 := by
  decide

/-- C7 (amended): every value of the Demand Index is the parsed demand of
some contributing row — an integer obtained by the source's demand branch
(truncation of a numeric value, default `0` when every demand alias is
absent or falsy) — with no non-negativity guarantee: a negative input is
stored unchanged. -/
theorem c7_demand_value_provenance (fromiso : String → Option DT)
    (pyfloat : String → Option Rat) (rows : List Row) (city : String) (t : DT)
    (v : Int) (h : (t, v) ∈ parse_demand_rows fromiso pyfloat rows city) :
    ∃ row ∈ rows,
      demandRowResult fromiso pyfloat (pyStrip city) row = some (t, v) ∧
      demandValue? pyfloat row = some v := by
  have hm := parse_demand_fold_mem fromiso pyfloat (pyStrip city) rows [] (t, v)
      (by simpa [parse_demand_rows] using h)
  rcases hm with hm | ⟨row, hrow, hres⟩
  · simp at hm
  · refine ⟨row, hrow, hres, ?_⟩
    unfold demandRowResult at hres
    by_cases hcity : pyStrip city ≠ "" ∧ cityValOf row ≠ pyStrip city
    · rw [if_pos hcity] at hres
      exact absurd hres (by simp)
    · rw [if_neg hcity] at hres
      by_cases hts : tsRawOf row = .vnone ∨ tsRawOf row = .vstr ""
      · rw [if_pos hts] at hres
        exact absurd hres (by simp)
      · rw [if_neg hts] at hres
        rcases hp : parseTs fromiso (tsRawOf row) with _ | dt
        · rw [hp] at hres
          exact absurd hres (by simp)
        · rw [hp] at hres
          rcases hdv : demandValue? pyfloat row with _ | d
          · rw [hdv] at hres
            exact absurd hres (by simp)
          · rw [hdv] at hres
            obtain ⟨-, rfl⟩ := Prod.mk.injEq .. ▸ Option.some_inj.mp hres
            rfl

/-- C7 witness: the provenance fact at the concrete negative-demand row. -/
theorem c7_demand_value_provenance_witness :
    ∃ row ∈ [rowNeg],
      demandRowResult isoStub floatStub (pyStrip "") row = some (600, -5) ∧
      demandValue? floatStub row = some (-5) :=
  c7_demand_value_provenance isoStub floatStub [rowNeg] "" 600 (-5) (by decide)

/-- C8: a row the per-row parser skips (for any reason: missing field,
unparseable timestamp, non-numeric demand, city mismatch, inverted
interval) contributes nothing — removing it from the input leaves the
demand index, resp. the rider collection, unchanged. -/
theorem c8_bad_rows_silently_skipped (fromiso : String → Option DT)
    (pyfloat : String → Option Rat) (city : String) (xs ys xs2 ys2 : List Row)
    (badD badR : Row) :
    (demandRowResult fromiso pyfloat (pyStrip city) badD = none →
      parse_demand_rows fromiso pyfloat (xs ++ badD :: ys) city =
        parse_demand_rows fromiso pyfloat (xs ++ ys) city) ∧
    (riderRowResult fromiso (pyStrip city) badR = none →
      parse_riders_rows fromiso (xs2 ++ badR :: ys2) city =
        parse_riders_rows fromiso (xs2 ++ ys2) city) := by
  constructor
  · intro hbad
    simp only [parse_demand_rows, List.foldl_append, List.foldl_cons, hbad]
  · intro hbad
    simp only [parse_riders_rows, List.foldl_append, List.foldl_cons, hbad]

/-- C8 witness: dropping a concrete malformed demand row (non-numeric
demand) and a concrete malformed rider row (missing interval end) leaves
the results unchanged. -/
theorem c8_bad_rows_silently_skipped_witness :
    parse_demand_rows isoStub floatStub ([rowD5] ++ badDemandRow :: []) "" =
      parse_demand_rows isoStub floatStub ([rowD5] ++ []) "" ∧
    parse_riders_rows isoStub ([riderRow1] ++ badRiderRow :: []) "" =
      parse_riders_rows isoStub ([riderRow1] ++ []) "" :=
  ⟨(c8_bad_rows_silently_skipped isoStub floatStub "" [rowD5] [] [riderRow1] []
      badDemandRow badRiderRow).1 (by decide),
   (c8_bad_rows_silently_skipped isoStub floatStub "" [rowD5] [] [riderRow1] []
      badDemandRow badRiderRow).2 (by decide)⟩

/-- C9: when the last row parses to `(t, v)`, the index holds `v` at `t`
regardless of what earlier rows wrote there — later rows overwrite, with
no summing. -/
theorem c9_duplicate_timestamp_last_write (fromiso : String → Option DT)
    (pyfloat : String → Option Rat) (city : String) (xs : List Row) (r : Row)
    (t : DT) (v : Int)
    (h : demandRowResult fromiso pyfloat (pyStrip city) r = some (t, v)) :
    mapGet (parse_demand_rows fromiso pyfloat (xs ++ [r]) city) t 0 = v := by
  simp only [parse_demand_rows, List.foldl_append, List.foldl_cons, List.foldl_nil, h]
  exact mapGet_mapSet_self _ t v 0

/-- C9 witness: two fixture rows with the same timestamp 600 and demands 5
then 9 leave 9 (not 5, not 14) in the index. -/
theorem c9_duplicate_timestamp_last_write_witness :
    mapGet (parse_demand_rows isoStub floatStub ([rowD5] ++ [rowD9]) "") 600 0 = 9 :=
  c9_duplicate_timestamp_last_write isoStub floatStub "" [rowD5] rowD9 600 9 (by decide)

/-- C10: the rider collection keeps one interval per accepted row in input
order with no deduplication (it is the `filterMap` of the per-row results),
and each interval overlapping a bucket contributes exactly `1` to that
bucket's available count — appending an overlapping interval row raises the
count by one even if an identical interval is already present. -/
theorem c10_available_counts_rows (fromiso : String → Option DT) (rows : List Row)
    (city : String) (dm : DemandMap) (rs : List Rider) (step t0 : Int)
    (r : Rider) :
    (parse_riders_rows fromiso rows city =
      rows.filterMap (riderRowResult fromiso (pyStrip city))) ∧
    (overlap r.start r.endt t0 (t0 + step) = true →
      (mkPoint dm (rs ++ [r]) step t0).available =
        (mkPoint dm rs step t0).available + 1) ∧
    (overlap r.start r.endt t0 (t0 + step) = false →
      (mkPoint dm (rs ++ [r]) step t0).available =
        (mkPoint dm rs step t0).available) := by
  refine ⟨parse_riders_rows_eq fromiso rows city, ?_, ?_⟩
  · intro h
    simp [mkPoint, List.countP_append, List.countP_cons, h]
  · intro h
    simp [mkPoint, List.countP_append, List.countP_cons, h]

/-- C10 witness: a duplicated rider row yields two identical intervals, and
appending an interval identical to an existing one still raises the
available count of the bucket it overlaps. -/
theorem c10_available_counts_rows_witness :
    parse_riders_rows isoStub [riderRow1, riderRow1] "" =
      [riderRow1, riderRow1].filterMap (riderRowResult isoStub (pyStrip "")) ∧
    (mkPoint [] ([⟨"1", 0, 30⟩] ++ [⟨"1", 0, 30⟩]) 30 0).available =
      (mkPoint [] [⟨"1", 0, 30⟩] 30 0).available + 1 :=
  ⟨(c10_available_counts_rows isoStub [riderRow1, riderRow1] "" [] [] 30 0
      ⟨"1", 0, 30⟩).1,
   (c10_available_counts_rows isoStub [riderRow1, riderRow1] "" [] [⟨"1", 0, 30⟩] 30 0
      ⟨"1", 0, 30⟩).2.1 (by decide)⟩
